import Mathlib

/-!
Shallow embedding of the numerical core of the wind-validation dashboard
(power curve, series transform, statistics, capacity-matching sweep),
translated from `src/utils/powerCurve.js`, `src/utils/calculations.js`,
`src/App.jsx` and `src/components/CapacitySweep.jsx`.

JavaScript numbers are modelled as real numbers; `Math.pow` is modelled as
`Real.rpow`; `Math.min` as `min`; `Array.prototype.reduce` with `(a,b)=>a+b`
and initial value `0` as `List.sum`; index loops `for i in 0..n` as sums
over `Finset.range n`, with element access `l.getD i 0` (in bounds for
every index the loops touch); `Array.prototype.sort` (stable, ES2019) as
`List.insertionSort`, which is stable.  JS field access `h.shear_exponent`
that may be absent is an `Option`, and the idiom `h.shear_exponent || 0.14`
is `jsOrDefault`, which also maps the falsy value `0` to the default,
exactly as `||` does.
-/

namespace WindVal

/-- Power-curve parameter record: the six tunable parameters of the model,
in the order of the destructuring in `App.jsx`
(`hubHeight, cutIn, ratedSpeed, cutOut, exponent, maxCf`).
`applyPowerCurve` in `powerCurve.js` reads only the last five fields. -/
structure Params where
  hubHeight : ℝ
  cutIn : ℝ
  ratedSpeed : ℝ
  cutOut : ℝ
  exponent : ℝ
  maxCf : ℝ

/-- One hourly record of `preprocessed.json`: `wind_speed_100m`,
an optional `shear_exponent`, and the observed `actual_cf`. -/
structure HourlyRecord where
  wind_speed_100m : ℝ
  shear_exponent : Option ℝ
  actual_cf : ℝ

/-- JS `x || d` for an optional numeric field: the default is used when the
field is absent and also when it is `0` (zero is falsy in JS). -/
noncomputable def jsOrDefault (x : Option ℝ) (d : ℝ) : ℝ :=
  match x with
  | none => d
  | some s => if s = 0 then d else s

/-- `extrapolateWindSpeed` from `powerCurve.js` (lines 11-14): power-law
extrapolation of the 100 m wind speed to hub height, with the height-100
short circuit. -/
noncomputable def extrapolateWindSpeed (ws100m hubHeight shear : ℝ) : ℝ :=
  if hubHeight = 100 then ws100m
  else ws100m * (hubHeight / 100) ^ shear

/-- `applyPowerCurve` from `powerCurve.js` (lines 37-44): zero outside
the cut-in/cut-out window, `maxCf` at and above rated speed, and in the
ramp region `min(fraction^exponent * maxCf, maxCf)`. -/
noncomputable def applyPowerCurve (windSpeed : ℝ) (p : Params) : ℝ :=
  if windSpeed < p.cutIn ∨ windSpeed > p.cutOut then 0
  else if p.ratedSpeed ≤ windSpeed then p.maxCf
  else min (((windSpeed - p.cutIn) / (p.ratedSpeed - p.cutIn)) ^ p.exponent * p.maxCf)
        p.maxCf

/-- `calculateModelCF` from `powerCurve.js` (lines 64-83): map each hourly
record to the capacity factor obtained by extrapolating the 100 m speed to
hub height (shear defaulting to 0.14) and applying the power curve. -/
noncomputable def calculateModelCF (hourlyData : List HourlyRecord) (p : Params) : List ℝ :=
  hourlyData.map fun hour =>
    applyPowerCurve
      (extrapolateWindSpeed hour.wind_speed_100m p.hubHeight
        (jsOrDefault hour.shear_exponent 0.14))
      p

/-- The power-curve part of the inline model-CF loop in `App.jsx`
(lines 75-83), also the body of the local `applyPowerCurve` in
`CapacitySweep.jsx` (lines 73-80): in the ramp region it computes
`min(fraction^exponent, maxCf)`, without the `* maxCf` scaling that
`powerCurve.js` applies. -/
noncomputable def appCurve (ws : ℝ) (p : Params) : ℝ :=
  if ws < p.cutIn ∨ ws > p.cutOut then 0
  else if p.ratedSpeed ≤ ws then p.maxCf
  else min (((ws - p.cutIn) / (p.ratedSpeed - p.cutIn)) ^ p.exponent) p.maxCf

/-- One iteration of the inline model-CF loop in `App.jsx` (lines 71-84):
the inline ternary `hubHeight === 100 ? speeds[i] : speeds[i] *
Math.pow(hubHeight / 100, shears[i])` is exactly `extrapolateWindSpeed`,
followed by the inline power-curve branches `appCurve`. -/
noncomputable def appHourCF (speed shear : ℝ) (p : Params) : ℝ :=
  appCurve (extrapolateWindSpeed speed p.hubHeight shear) p

/-- The model-CF series of `App.jsx`: `windData` (lines 56-62) extracts the
speed and shear arrays (shear defaulting via `|| 0.14`), and the `modelCF`
memo (lines 65-86) fills `result[i]` from `speeds[i]` and `shears[i]`. -/
noncomputable def appModelCF (hourlyData : List HourlyRecord) (p : Params) : List ℝ :=
  List.zipWith (fun s sh => appHourCF s sh p)
    (hourlyData.map fun h => h.wind_speed_100m)
    (hourlyData.map fun h => jsOrDefault h.shear_exponent 0.14)

/-- The `optimal` parameter preset of `constants.js` (hubHeight 100,
cutIn 1.5, ratedSpeed 8.9, cutOut 25, exponent 2.5, maxCf 0.84), which is
also the scenario parameter set of the spec. -/
noncomputable def scenarioParams : Params := ⟨100, 1.5, 8.9, 25, 2.5, 0.84⟩

/-- Branch evaluation helper: outside the cut-in/cut-out window the power
curve takes its first branch. -/
theorem applyPowerCurve_out (s : ℝ) (p : Params)
    (h : s < p.cutIn ∨ s > p.cutOut) : applyPowerCurve s p = 0 := by
  unfold applyPowerCurve
  rw [if_pos h]

/-- Branch evaluation helper: inside the window, at or above rated speed,
the power curve takes its saturation branch. -/
theorem applyPowerCurve_sat (s : ℝ) (p : Params)
    (h1 : ¬(s < p.cutIn ∨ s > p.cutOut)) (h2 : p.ratedSpeed ≤ s) :
    applyPowerCurve s p = p.maxCf := by
  unfold applyPowerCurve
  rw [if_neg h1, if_pos h2]

/-- Branch evaluation helper: inside the window, strictly below rated
speed, the power curve takes its ramp branch. -/
theorem applyPowerCurve_ramp (s : ℝ) (p : Params)
    (h1 : ¬(s < p.cutIn ∨ s > p.cutOut)) (h2 : ¬ p.ratedSpeed ≤ s) :
    applyPowerCurve s p
      = min (((s - p.cutIn) / (p.ratedSpeed - p.cutIn)) ^ p.exponent * p.maxCf) p.maxCf := by
  unfold applyPowerCurve
  rw [if_neg h1, if_neg h2]

/-- C3: below cut-in or above cut-out the power curve returns exactly 0,
for every parameter set, regardless of how the speed compares to rated
speed. -/
theorem applyPowerCurve_zero_outside_window (s : ℝ) (p : Params)
    (h : s < p.cutIn ∨ s > p.cutOut) : applyPowerCurve s p = 0 := by
  unfold applyPowerCurve
  rw [if_pos h]

/-- Witness for C3 at the spec scenario: speed 30 is above cut-out 25 and
yields 0. -/
theorem applyPowerCurve_zero_outside_window_witness :
    applyPowerCurve 30 scenarioParams = 0 :=
  applyPowerCurve_zero_outside_window 30 scenarioParams
    (Or.inr (by unfold scenarioParams; norm_num))

/-- C4: for rated speed at most the speed, speed at most cut-out, and
cut-in at most rated speed, the power curve saturates at exactly `maxCf`. -/
theorem applyPowerCurve_saturates (s : ℝ) (p : Params)
    (h1 : p.ratedSpeed ≤ s) (h2 : s ≤ p.cutOut) (h3 : p.cutIn ≤ p.ratedSpeed) :
    applyPowerCurve s p = p.maxCf := by
  unfold applyPowerCurve
  rw [if_neg, if_pos h1]
  push_neg
  exact ⟨le_trans h3 h1, h2⟩

/-- Witness for C4 at the spec scenario: speed 8.9 equals rated speed and
yields maxCf = 0.84. -/
theorem applyPowerCurve_saturates_witness :
    applyPowerCurve 8.9 scenarioParams = 0.84 :=
  applyPowerCurve_saturates 8.9 scenarioParams
    (by unfold scenarioParams; norm_num)
    (by unfold scenarioParams; norm_num)
    (by unfold scenarioParams; norm_num)

/-- C5: when rated speed equals cut-in, the power curve is an immediate
saturation: `maxCf` on the whole window from cut-in to cut-out and 0
outside it.  The ramp branch, the only place the denominator
`ratedSpeed - cutIn` is used, is never reached, so the division by zero
never influences the result. -/
theorem applyPowerCurve_rated_eq_cutIn (s : ℝ) (p : Params)
    (h : p.ratedSpeed = p.cutIn) :
    (p.cutIn ≤ s → s ≤ p.cutOut → applyPowerCurve s p = p.maxCf) ∧
    (s < p.cutIn ∨ s > p.cutOut → applyPowerCurve s p = 0) := by
  constructor
  · intro h1 h2
    unfold applyPowerCurve
    rw [if_neg, if_pos (h ▸ h1)]
    push_neg
    exact ⟨h1, h2⟩
  · intro hout
    unfold applyPowerCurve
    rw [if_pos hout]

/-- Witness for C5 with rated speed = cut-in = 3: speed 5 inside the window
gives maxCf = 0.9, speed 2 below cut-in gives 0. -/
theorem applyPowerCurve_rated_eq_cutIn_witness :
    applyPowerCurve 5 ⟨100, 3, 3, 25, 2.5, 0.9⟩ = 0.9 ∧
    applyPowerCurve 2 ⟨100, 3, 3, 25, 2.5, 0.9⟩ = 0 :=
  ⟨(applyPowerCurve_rated_eq_cutIn 5 ⟨100, 3, 3, 25, 2.5, 0.9⟩ rfl).1
      (by norm_num) (by norm_num),
    (applyPowerCurve_rated_eq_cutIn 2 ⟨100, 3, 3, 25, 2.5, 0.9⟩ rfl).2
      (Or.inl (by norm_num))⟩

/-- C2: in the ramp region (cut-in ≤ speed < rated speed, speed ≤ cut-out)
the power curve equals `min(((s - cutIn) / (ratedSpeed - cutIn))^exponent
* maxCf, maxCf)`; and at the spec scenario (cutIn 1.5, ratedSpeed 8.9,
cutOut 25, exponent 2.5, maxCf 0.84) speed 5.2 yields exactly
`0.5 ^ 2.5 * 0.84`, which lies between 0.148 and 0.149 (the spec's
approximation 0.1485). -/
theorem applyPowerCurve_ramp_formula (s : ℝ) (p : Params)
    (h1 : p.cutIn ≤ s) (h2 : s < p.ratedSpeed) (h3 : s ≤ p.cutOut) :
    applyPowerCurve s p
      = min (((s - p.cutIn) / (p.ratedSpeed - p.cutIn)) ^ p.exponent * p.maxCf) p.maxCf
    ∧ applyPowerCurve 5.2 scenarioParams = (0.5 : ℝ) ^ (2.5 : ℝ) * 0.84
    ∧ 0.148 < applyPowerCurve 5.2 scenarioParams
    ∧ applyPowerCurve 5.2 scenarioParams < 0.149 := by
  have hle : ((0.5 : ℝ)) ^ (2.5 : ℝ) * 0.84 ≤ 0.84 :=
    mul_le_of_le_one_left (by norm_num)
      (Real.rpow_le_one (by norm_num) (by norm_num) (by norm_num))
  have hscen : applyPowerCurve 5.2 scenarioParams = (0.5 : ℝ) ^ (2.5 : ℝ) * 0.84 := by
    have e := applyPowerCurve_ramp 5.2 scenarioParams
      (by unfold scenarioParams; push_neg; norm_num)
      (by unfold scenarioParams; norm_num)
    rw [e]
    unfold scenarioParams
    rw [show ((5.2 - 1.5) / (8.9 - 1.5) : ℝ) = 0.5 by norm_num]
    exact min_eq_left hle
  have hsq : ((0.5 : ℝ) ^ (2.5 : ℝ)) ^ (2 : ℕ) = 1/32 := by
    rw [← Real.rpow_natCast ((0.5 : ℝ) ^ (2.5 : ℝ)) 2, ← Real.rpow_mul (by norm_num)]
    norm_num
  have hpos : (0 : ℝ) < (0.5 : ℝ) ^ (2.5 : ℝ) := Real.rpow_pos_of_pos (by norm_num) _
  refine ⟨applyPowerCurve_ramp s p ?_ (not_le.mpr h2), hscen, ?_, ?_⟩
  · push_neg
    exact ⟨h1, h3⟩
  · rw [hscen]
    nlinarith [sq_nonneg ((0.5 : ℝ) ^ (2.5 : ℝ) - 0.1768), sq_nonneg ((0.5 : ℝ) ^ (2.5 : ℝ) - 0.1767)]
  · rw [hscen]
    nlinarith [sq_nonneg ((0.5 : ℝ) ^ (2.5 : ℝ) - 0.1768), sq_nonneg ((0.5 : ℝ) ^ (2.5 : ℝ) - 0.1767)]

/-- Witness for C2 at the spec scenario: speed 5.2 with the scenario
parameters satisfies the ramp hypotheses, and the ramp formula together
with the exact scenario value hold there. -/
theorem applyPowerCurve_ramp_formula_witness :
    applyPowerCurve 5.2 scenarioParams
      = min (((5.2 - scenarioParams.cutIn) / (scenarioParams.ratedSpeed - scenarioParams.cutIn))
          ^ scenarioParams.exponent * scenarioParams.maxCf) scenarioParams.maxCf
    ∧ applyPowerCurve 5.2 scenarioParams = (0.5 : ℝ) ^ (2.5 : ℝ) * 0.84 := by
  have h := applyPowerCurve_ramp_formula 5.2 scenarioParams
    (by unfold scenarioParams; norm_num)
    (by unfold scenarioParams; norm_num)
    (by unfold scenarioParams; norm_num)
  exact ⟨h.1, h.2.1⟩

/-- C10: the thresholds are exclusive at equality.  With cut-in < rated
speed ≤ cut-out, a positive exponent and a nonnegative maxCf: at speed
exactly cut-in the ramp branch is taken (the result equals the ramp
formula, whose fraction is 0) and the value is 0; at speed exactly cut-out
the saturation branch is taken and the value is maxCf — shutdown happens
only strictly above cut-out. -/
theorem applyPowerCurve_threshold_boundaries (p : Params)
    (h1 : p.cutIn < p.ratedSpeed) (h2 : p.ratedSpeed ≤ p.cutOut)
    (h3 : 0 < p.exponent) (h4 : 0 ≤ p.maxCf) :
    applyPowerCurve p.cutIn p
        = min (((p.cutIn - p.cutIn) / (p.ratedSpeed - p.cutIn)) ^ p.exponent * p.maxCf) p.maxCf
    ∧ applyPowerCurve p.cutIn p = 0
    ∧ applyPowerCurve p.cutOut p = p.maxCf := by
  have hin : ¬(p.cutIn < p.cutIn ∨ p.cutIn > p.cutOut) := by
    push_neg
    exact ⟨le_refl _, le_trans h1.le h2⟩
  have hramp := applyPowerCurve_ramp p.cutIn p hin (not_le.mpr h1)
  refine ⟨hramp, ?_, ?_⟩
  · rw [hramp, sub_self, zero_div, Real.zero_rpow h3.ne', zero_mul]
    exact min_eq_left h4
  · exact applyPowerCurve_sat p.cutOut p
      (by push_neg; exact ⟨le_trans h1.le h2, le_refl _⟩) h2

/-- Witness for C10 at the spec scenario: speed 1.5 (= cut-in) yields 0,
speed 25 (= cut-out) yields maxCf = 0.84. -/
theorem applyPowerCurve_threshold_boundaries_witness :
    applyPowerCurve scenarioParams.cutIn scenarioParams = 0
    ∧ applyPowerCurve scenarioParams.cutOut scenarioParams = scenarioParams.maxCf := by
  have h := applyPowerCurve_threshold_boundaries scenarioParams
    (by unfold scenarioParams; norm_num)
    (by unfold scenarioParams; norm_num)
    (by unfold scenarioParams; norm_num)
    (by unfold scenarioParams; norm_num)
  exact ⟨h.2.1, h.2.2⟩

/-- Zipping two projections of the same list pointwise is a map over the
list: the shape in which `App.jsx` splits `windData` into a speeds array
and a shears array and then recombines them index by index. -/
theorem zipWith_map_same {α β γ δ : Type} (f : β → γ → δ) (a : α → β) (b : α → γ)
    (l : List α) :
    List.zipWith f (l.map a) (l.map b) = l.map fun x => f (a x) (b x) := by
  induction l with
  | nil => rfl
  | cons x xs ih => simp [List.zipWith, ih]

/-- Outside the ramp region the inline `App.jsx` power curve and the
`powerCurve.js` one take the same branch and agree. -/
theorem appCurve_eq_applyPowerCurve_nonramp (ws : ℝ) (p : Params)
    (h : ws < p.cutIn ∨ ws > p.cutOut ∨ p.ratedSpeed ≤ ws) :
    appCurve ws p = applyPowerCurve ws p := by
  unfold appCurve applyPowerCurve
  rcases h with h | h | h
  · rw [if_pos (Or.inl h), if_pos (Or.inl h)]
  · rw [if_pos (Or.inr h), if_pos (Or.inr h)]
  · by_cases hout : ws < p.cutIn ∨ ws > p.cutOut
    · rw [if_pos hout, if_pos hout]
    · rw [if_neg hout, if_neg hout, if_pos h, if_pos h]

/-- When the capacity-factor ceiling is 1 the missing `* maxCf` factor in
the `App.jsx` ramp is invisible and the two power curves agree everywhere. -/
theorem appCurve_eq_applyPowerCurve_of_maxCf_one (ws : ℝ) (p : Params)
    (h : p.maxCf = 1) : appCurve ws p = applyPowerCurve ws p := by
  unfold appCurve applyPowerCurve
  rw [h, mul_one]

/-- C1 (amended): both series transforms produce one CF per input record in
input order (output length equals input length); they agree at every index
whose hub-height speed falls outside the ramp region; and they are equal as
functions whenever `maxCf = 1`.  In the ramp region they differ in general:
`App.jsx` computes `min(fraction^exponent, maxCf)` while
`calculateModelCF` computes `min(fraction^exponent * maxCf, maxCf)` (see
the counterexample `modelCF_implementations_differ`). -/
theorem modelCF_series_refinement (hourly : List HourlyRecord) (p : Params) :
    (appModelCF hourly p).length = hourly.length
    ∧ (calculateModelCF hourly p).length = hourly.length
    ∧ (∀ ws, ws < p.cutIn ∨ ws > p.cutOut ∨ p.ratedSpeed ≤ ws →
        appCurve ws p = applyPowerCurve ws p)
    ∧ (p.maxCf = 1 → appModelCF hourly p = calculateModelCF hourly p) := by
  refine ⟨?_, ?_, fun ws h => appCurve_eq_applyPowerCurve_nonramp ws p h, ?_⟩
  · rw [appModelCF, zipWith_map_same, List.length_map]
  · rw [calculateModelCF, List.length_map]
  · intro h1
    rw [appModelCF, zipWith_map_same, calculateModelCF]
    refine List.map_congr_left fun h _ => ?_
    unfold appHourCF
    exact appCurve_eq_applyPowerCurve_of_maxCf_one _ p h1

/-- Witness for C1 (amended) on a one-record input with `maxCf = 1`: the
output has length 1 and the two transforms coincide. -/
theorem modelCF_series_refinement_witness :
    (appModelCF [⟨5.2, none, 0.3⟩] ⟨100, 1.5, 8.9, 25, 2.5, 1⟩).length = 1
    ∧ appModelCF [⟨5.2, none, 0.3⟩] ⟨100, 1.5, 8.9, 25, 2.5, 1⟩
        = calculateModelCF [⟨5.2, none, 0.3⟩] ⟨100, 1.5, 8.9, 25, 2.5, 1⟩ :=
  ⟨(modelCF_series_refinement [⟨5.2, none, 0.3⟩] ⟨100, 1.5, 8.9, 25, 2.5, 1⟩).1,
    (modelCF_series_refinement [⟨5.2, none, 0.3⟩] ⟨100, 1.5, 8.9, 25, 2.5, 1⟩).2.2.2 rfl⟩

/-- Counterexample to C1 as stated: on the single record with 100 m wind
speed 5.2 (no shear field) and parameters hubHeight 100, cutIn 1.5,
ratedSpeed 8.9, cutOut 25, exponent 1, maxCf 0.84, the `App.jsx` inline
loop produces `min(0.5, 0.84) = 0.5` while `calculateModelCF` produces
`min(0.5 * 0.84, 0.84) = 0.42`: the two series transforms are not equal as
functions. -/
theorem modelCF_implementations_differ :
    appModelCF [⟨5.2, none, 0.3⟩] ⟨100, 1.5, 8.9, 25, 1, 0.84⟩
      ≠ calculateModelCF [⟨5.2, none, 0.3⟩] ⟨100, 1.5, 8.9, 25, 1, 0.84⟩ := by
  have hws : extrapolateWindSpeed 5.2 (100 : ℝ) (jsOrDefault none 0.14) = 5.2 := by
    unfold extrapolateWindSpeed
    rw [if_pos rfl]
  have happ : appModelCF [⟨5.2, none, 0.3⟩] ⟨100, 1.5, 8.9, 25, 1, 0.84⟩ = [(0.5 : ℝ)] := by
    unfold appModelCF appHourCF
    simp only [List.map, List.zipWith, hws]
    unfold appCurve
    rw [if_neg (by push_neg; norm_num), if_neg (by norm_num)]
    rw [show ((5.2 - 1.5) / (8.9 - 1.5) : ℝ) = 0.5 by norm_num, Real.rpow_one]
    rw [min_eq_left (by norm_num)]
  have hlib : calculateModelCF [⟨5.2, none, 0.3⟩] ⟨100, 1.5, 8.9, 25, 1, 0.84⟩
      = [(0.42 : ℝ)] := by
    unfold calculateModelCF
    simp only [List.map, hws]
    unfold applyPowerCurve
    rw [if_neg (by push_neg; norm_num), if_neg (by norm_num)]
    rw [show ((5.2 - 1.5) / (8.9 - 1.5) : ℝ) = 0.5 by norm_num, Real.rpow_one]
    rw [min_eq_left (by norm_num)]
    norm_num
  rw [happ, hlib]
  intro h
  have := List.head_eq_of_cons_eq h
  norm_num at this

/-- `mean` from `calculations.js` (lines 102-105): 0 on the empty list,
otherwise the sum divided by the length. -/
noncomputable def mean (arr : List ℝ) : ℝ :=
  if arr.length = 0 then 0 else arr.sum / (arr.length : ℝ)

/-- Sum of squared deviations of the first `n` entries of `l` from
`l.sum / n`: the `sumX2` and `sumY2` accumulators of
`calculateCorrelation` and `linearRegression` in `calculations.js`, whose
loops run over `n = x.length` indices and whose means divide by that same
`n`. -/
noncomputable def devSqN (n : ℕ) (l : List ℝ) : ℝ :=
  ∑ i ∈ Finset.range n, (l.getD i 0 - l.sum / (n : ℝ)) * (l.getD i 0 - l.sum / (n : ℝ))

/-- Squared-deviation sum of a whole series from its own mean: `devSqN` at
the series' own length — "zero variance" of a series means this is 0. -/
noncomputable def devSq (l : List ℝ) : ℝ := devSqN l.length l

/-- `calculateCorrelation` from `calculations.js` (lines 12-35): the
Pearson coefficient, with the degenerate-input policy of returning 0 on
mismatched or empty inputs and when the denominator
`sqrt(sumX2 * sumY2)` is exactly 0. -/
noncomputable def calculateCorrelation (x y : List ℝ) : ℝ :=
  if x.length ≠ y.length ∨ x.length = 0 then 0
  else if Real.sqrt (devSqN x.length x * devSqN x.length y) = 0 then 0
  else (∑ i ∈ Finset.range x.length,
      (x.getD i 0 - x.sum / (x.length : ℝ)) * (y.getD i 0 - y.sum / (x.length : ℝ)))
    / Real.sqrt (devSqN x.length x * devSqN x.length y)

/-- Result record of `linearRegression`: slope, intercept, r, r2. -/
structure RegressionResult where
  slope : ℝ
  intercept : ℝ
  r : ℝ
  r2 : ℝ

/-- The `slope` local of `linearRegression` in `calculations.js` (line 73):
0 when `sumX2 == 0`, otherwise `sumXY / sumX2`. -/
noncomputable def regSlope (x y : List ℝ) : ℝ :=
  if devSqN x.length x = 0 then 0
  else (∑ i ∈ Finset.range x.length,
      (x.getD i 0 - x.sum / (x.length : ℝ)) * (y.getD i 0 - y.sum / (x.length : ℝ)))
    / devSqN x.length x

/-- `linearRegression` from `calculations.js` (lines 56-83): all-zero
result on mismatched or empty input, otherwise ordinary least squares by
deviation sums, with `intercept = meanY - slope * meanX` and
`r` from `calculateCorrelation`. -/
noncomputable def linearRegression (x y : List ℝ) : RegressionResult :=
  if x.length ≠ y.length ∨ x.length = 0 then ⟨0, 0, 0, 0⟩
  else
    ⟨regSlope x y,
      y.sum / (x.length : ℝ) - regSlope x y * (x.sum / (x.length : ℝ)),
      calculateCorrelation x y,
      calculateCorrelation x y * calculateCorrelation x y⟩

/-- C6: the degenerate-input policy of the statistics engine.
`calculateCorrelation` returns 0 (not an error) on mismatched lengths, on
two empty inputs, and whenever either series has zero variance (which
makes the denominator exactly 0); `linearRegression` returns the all-zero
record on mismatched or empty input, and returns slope 0 with intercept
`mean y` whenever the squared x-deviation sum is 0. -/
theorem stats_degenerate_inputs (x y : List ℝ) :
    (x.length ≠ y.length →
      calculateCorrelation x y = 0 ∧ linearRegression x y = ⟨0, 0, 0, 0⟩)
    ∧ (calculateCorrelation ([] : List ℝ) [] = 0
        ∧ linearRegression ([] : List ℝ) [] = ⟨0, 0, 0, 0⟩)
    ∧ (devSq x = 0 ∨ devSq y = 0 → calculateCorrelation x y = 0)
    ∧ (x.length = y.length → x ≠ [] → devSq x = 0 →
        (linearRegression x y).slope = 0 ∧ (linearRegression x y).intercept = mean y) := by
  refine ⟨fun h => ⟨?_, ?_⟩, ⟨?_, ?_⟩, fun hvar => ?_, fun hlen hxne hdev => ?_⟩
  · unfold calculateCorrelation
    rw [if_pos (Or.inl h)]
  · unfold linearRegression
    rw [if_pos (Or.inl h)]
  · simp [calculateCorrelation]
  · simp [linearRegression]
  · by_cases hc : x.length ≠ y.length ∨ x.length = 0
    · unfold calculateCorrelation
      rw [if_pos hc]
    · have hzero : Real.sqrt (devSqN x.length x * devSqN x.length y) = 0 := by
        push_neg at hc
        rcases hvar with h | h
        · rw [devSq] at h
          rw [h, zero_mul, Real.sqrt_zero]
        · rw [devSq, ← hc.1] at h
          rw [h, mul_zero, Real.sqrt_zero]
      unfold calculateCorrelation
      rw [if_neg hc, if_pos hzero]
  · have hx0 : x.length ≠ 0 := fun h0 => hxne (List.length_eq_zero.mp h0)
    have hc : ¬(x.length ≠ y.length ∨ x.length = 0) := by
      push_neg
      exact ⟨hlen, hx0⟩
    have hslope : regSlope x y = 0 := by
      unfold regSlope
      rw [devSq] at hdev
      rw [if_pos hdev]
    have hy0 : y.length ≠ 0 := hlen ▸ hx0
    constructor
    · unfold linearRegression
      rw [if_neg hc]
      simp [hslope]
    · unfold linearRegression mean
      rw [if_neg hc, if_neg hy0, hlen]
      simp [hslope]

/-- Witness for C6: a length-mismatched pair yields correlation 0; the
constant series (2, 2) has zero variance, so against (1, 5) the
correlation is 0, the regression slope is 0 and the intercept is the mean
of (1, 5). -/
theorem stats_degenerate_inputs_witness :
    calculateCorrelation [1, 2] [3] = 0
    ∧ calculateCorrelation [2, 2] [1, 5] = 0
    ∧ (linearRegression [2, 2] [1, 5]).slope = 0
    ∧ (linearRegression [2, 2] [1, 5]).intercept = mean [1, 5] := by
  have hdev : devSq ([2, 2] : List ℝ) = 0 := by
    simp [devSq, devSqN, Finset.sum_range_succ]
  refine ⟨((stats_degenerate_inputs [1, 2] [3]).1 (by norm_num)).1,
    (stats_degenerate_inputs [2, 2] [1, 5]).2.2.1 (Or.inl hdev),
    ((stats_degenerate_inputs [2, 2] [1, 5]).2.2.2 rfl (by simp) hdev).1,
    ((stats_degenerate_inputs [2, 2] [1, 5]).2.2.2 rfl (by simp) hdev).2⟩

/-- One point of the duration curve: `{ hour: i, cf }`. -/
structure DurationPoint where
  hour : ℕ
  cf : ℝ

/-- `generateDurationCurve` from `calculations.js` (lines 91-97): sort a
copy of the CF array descending (JS stable sort with comparator
`(a, b) => b - a`, modelled by the stable `insertionSort` on `≥`) and tag
each value with its rank. -/
noncomputable def generateDurationCurve (cfArray : List ℝ) : List DurationPoint :=
  (List.insertionSort (· ≥ ·) cfArray).enum.map fun p => ⟨p.1, p.2⟩

/-- The cf values of the duration curve are the descending sort of the
input. -/
theorem durationCurve_map_cf (l : List ℝ) :
    (generateDurationCurve l).map DurationPoint.cf = List.insertionSort (· ≥ ·) l := by
  unfold generateDurationCurve
  rw [List.map_map]
  have h : (DurationPoint.cf ∘ fun p : ℕ × ℝ => DurationPoint.mk p.1 p.2) = Prod.snd := rfl
  rw [h, List.enum_map_snd]

/-- In a descending-sorted list the head dominates the last element. -/
theorem sorted_head_ge_getLast (m : List ℝ) (hs : List.Sorted (· ≥ ·) m)
    (h : m ≠ []) : m.head h ≥ m.getLast h := by
  cases m with
  | nil => exact absurd rfl h
  | cons a t =>
    rw [List.head_cons]
    rcases List.mem_cons.mp (List.getLast_mem h) with he | hm
    · rw [he]
    · exact (List.sorted_cons.mp hs).1 _ hm

/-- C7: the duration curve has the length of its input, its cf values are
a permutation of the input values, they are sorted descending, and the
first cf value is at least the last.  The input list itself is untouched:
the source sorts a spread copy `[...cfArray]`, and the embedding is a pure
function of the input. -/
theorem durationCurve_spec (l : List ℝ) :
    (generateDurationCurve l).length = l.length
    ∧ ((generateDurationCurve l).map DurationPoint.cf).Perm l
    ∧ List.Sorted (· ≥ ·) ((generateDurationCurve l).map DurationPoint.cf)
    ∧ ∀ h : (generateDurationCurve l).map DurationPoint.cf ≠ [],
        ((generateDurationCurve l).map DurationPoint.cf).head h
          ≥ ((generateDurationCurve l).map DurationPoint.cf).getLast h := by
  have hmap := durationCurve_map_cf l
  refine ⟨?_, ?_, ?_, fun h => ?_⟩
  · unfold generateDurationCurve
    rw [List.length_map, List.enum_length, List.length_insertionSort]
  · rw [hmap]
    exact List.perm_insertionSort _ l
  · rw [hmap]
    exact List.sorted_insertionSort _ l
  · exact sorted_head_ge_getLast _
      (by rw [hmap]; exact List.sorted_insertionSort _ l) h

/-- Witness for C7 on the series (0.2, 0.7, 0.5): length 3, a permutation
of the input, sorted descending, and head at least last. -/
theorem durationCurve_spec_witness :
    (generateDurationCurve [0.2, 0.7, 0.5]).length = 3
    ∧ ((generateDurationCurve [0.2, 0.7, 0.5]).map DurationPoint.cf).Perm [0.2, 0.7, 0.5]
    ∧ List.Sorted (· ≥ ·) ((generateDurationCurve [0.2, 0.7, 0.5]).map DurationPoint.cf) :=
  ⟨(durationCurve_spec [0.2, 0.7, 0.5]).1,
    (durationCurve_spec [0.2, 0.7, 0.5]).2.1,
    (durationCurve_spec [0.2, 0.7, 0.5]).2.2.1⟩

/-- `calculateMatchAtPct` from `CapacitySweep.jsx` (lines 20-34): with the
annual load normalized to 1 (hourly load `1/n`), scale the CF profile by
`genScale = (genPct/100) / (avgCF * n)`, accumulate
`min(cf[i] * genScale, 1/n)` over the hours, and report the total as a
percentage. -/
noncomputable def calculateMatchAtPct (cfProfile : List ℝ) (avgCF genPctOfLoad : ℝ) : ℝ :=
  (∑ i ∈ Finset.range cfProfile.length,
    min (cfProfile.getD i 0 * (genPctOfLoad / 100 / (avgCF * (cfProfile.length : ℝ))))
      (1 / (cfProfile.length : ℝ))) * 100

/-- `calculateMultiResourceMatch` from `CapacitySweep.jsx` (lines 40-61):
each resource's hourly generation is scaled by its own percentage-of-load
weight and its own average CF, the three are summed, and the clamp
against the hourly load `1/n` applies to the sum. -/
noncomputable def calculateMultiResourceMatch
    (mainWindCF : List ℝ) (mainWindAvgCF : ℝ)
    (solarCF : List ℝ) (solarAvgCF : ℝ)
    (wind2CF : List ℝ) (wind2AvgCF : ℝ)
    (mainWindPct solarPct wind2Pct : ℝ) : ℝ :=
  (∑ i ∈ Finset.range mainWindCF.length,
    min (mainWindCF.getD i 0 * (mainWindPct / 100) / (mainWindAvgCF * (mainWindCF.length : ℝ))
        + solarCF.getD i 0 * (solarPct / 100) / (solarAvgCF * (mainWindCF.length : ℝ))
        + wind2CF.getD i 0 * (wind2Pct / 100) / (wind2AvgCF * (mainWindCF.length : ℝ)))
      (1 / (mainWindCF.length : ℝ))) * 100

/-- C8: for a nonnegative CF profile and positive average CF, the hourly
match is 0 at generation percentage 0, monotonically non-decreasing in the
generation percentage, and never exceeds 100. -/
theorem matchAtPct_spec (cfProfile : List ℝ) (avgCF : ℝ)
    (hcf : ∀ c ∈ cfProfile, 0 ≤ c) (havg : 0 < avgCF) :
    calculateMatchAtPct cfProfile avgCF 0 = 0
    ∧ (∀ g1 g2, g1 ≤ g2 →
        calculateMatchAtPct cfProfile avgCF g1 ≤ calculateMatchAtPct cfProfile avgCF g2)
    ∧ ∀ g, calculateMatchAtPct cfProfile avgCF g ≤ 100 := by
  refine ⟨?_, fun g1 g2 hg => ?_, fun g => ?_⟩
  · unfold calculateMatchAtPct
    rw [Finset.sum_eq_zero, zero_mul]
    intro i _
    rw [zero_div, zero_div, mul_zero]
    exact min_eq_left (by positivity)
  · unfold calculateMatchAtPct
    apply mul_le_mul_of_nonneg_right _ (by norm_num : (0:ℝ) ≤ 100)
    apply Finset.sum_le_sum
    intro i hi
    have hlt := Finset.mem_range.mp hi
    have h0 : 0 ≤ cfProfile.getD i 0 := by
      rw [List.getD_eq_getElem _ _ hlt]
      exact hcf _ (List.getElem_mem hlt)
    have hn : (0:ℝ) < (cfProfile.length : ℝ) := by
      exact_mod_cast lt_of_le_of_lt (Nat.zero_le i) hlt
    refine min_le_min (mul_le_mul_of_nonneg_left ?_ h0) (le_refl _)
    exact (div_le_div_iff_of_pos_right (mul_pos havg hn)).mpr
      ((div_le_div_iff_of_pos_right (by norm_num : (0:ℝ) < 100)).mpr hg)
  · unfold calculateMatchAtPct
    rcases Nat.eq_zero_or_pos cfProfile.length with h0 | hpos
    · rw [h0]
      simp
    · have hn : (0:ℝ) < (cfProfile.length : ℝ) := by exact_mod_cast hpos
      have hsum : (∑ i ∈ Finset.range cfProfile.length,
          min (cfProfile.getD i 0 * (g / 100 / (avgCF * (cfProfile.length : ℝ))))
            (1 / (cfProfile.length : ℝ))) ≤ 1 := by
        calc (∑ i ∈ Finset.range cfProfile.length,
              min (cfProfile.getD i 0 * (g / 100 / (avgCF * (cfProfile.length : ℝ))))
                (1 / (cfProfile.length : ℝ)))
            ≤ ∑ _i ∈ Finset.range cfProfile.length, 1 / (cfProfile.length : ℝ) :=
              Finset.sum_le_sum fun i _ => min_le_right _ _
          _ = (cfProfile.length : ℝ) * (1 / (cfProfile.length : ℝ)) := by
              rw [Finset.sum_const, Finset.card_range, nsmul_eq_mul]
          _ = 1 := mul_one_div_cancel hn.ne'
      linarith [hsum]

/-- Witness for C8 on the profile (0.5, 0.3) with average CF 0.4: the match
is 0 at 0%, monotone from 50% to 100%, and at most 100 at 120%. -/
theorem matchAtPct_spec_witness :
    calculateMatchAtPct [0.5, 0.3] 0.4 0 = 0
    ∧ calculateMatchAtPct [0.5, 0.3] 0.4 50 ≤ calculateMatchAtPct [0.5, 0.3] 0.4 100
    ∧ calculateMatchAtPct [0.5, 0.3] 0.4 120 ≤ 100 := by
  have h := matchAtPct_spec [0.5, 0.3] 0.4
    (by intro c hc; fin_cases hc <;> norm_num) (by norm_num)
  exact ⟨h.1, h.2.1 50 100 (by norm_num), h.2.2 120⟩

/-- C9: for three CF series of equal length with positive average CFs, the
multi-resource match is 100 times the sum over hours of the per-hour sum
of independently normalized generations clamped at the hourly load `1/n`;
and with the solar and second-wind weights at 0 it coincides with the
single-resource `calculateMatchAtPct` on the primary series. -/
theorem multiResourceMatch_spec
    (main solar wind2 : List ℝ) (mainAvg solarAvg wind2Avg mainPct solarPct wind2Pct : ℝ)
    (hl1 : solar.length = main.length) (hl2 : wind2.length = main.length)
    (h1 : 0 < mainAvg) (h2 : 0 < solarAvg) (h3 : 0 < wind2Avg) :
    calculateMultiResourceMatch main mainAvg solar solarAvg wind2 wind2Avg
        mainPct solarPct wind2Pct
      = 100 * ∑ i ∈ Finset.range main.length,
          min (main.getD i 0 * (mainPct / 100) / (mainAvg * (main.length : ℝ))
              + solar.getD i 0 * (solarPct / 100) / (solarAvg * (main.length : ℝ))
              + wind2.getD i 0 * (wind2Pct / 100) / (wind2Avg * (main.length : ℝ)))
            (1 / (main.length : ℝ))
    ∧ calculateMultiResourceMatch main mainAvg solar solarAvg wind2 wind2Avg mainPct 0 0
      = calculateMatchAtPct main mainAvg mainPct := by
  constructor
  · unfold calculateMultiResourceMatch
    rw [mul_comm]
  · unfold calculateMultiResourceMatch calculateMatchAtPct
    congr 1
    apply Finset.sum_congr rfl
    intro i _
    norm_num [mul_div_assoc]

/-- Witness for C9: with solar and second-wind weights 0, the
multi-resource match on concrete length-2 series equals the
single-resource match of the primary series at 80%. -/
theorem multiResourceMatch_spec_witness :
    calculateMultiResourceMatch [0.5, 0.3] 0.4 [0.2, 0.1] 0.15 [0.4, 0.6] 0.5 80 0 0
      = calculateMatchAtPct [0.5, 0.3] 0.4 80 :=
  (multiResourceMatch_spec [0.5, 0.3] [0.2, 0.1] [0.4, 0.6] 0.4 0.15 0.5 80 0 0
    rfl rfl (by norm_num) (by norm_num) (by norm_num)).2

end WindVal
